import Mathlib

/-!
Verification model of the ctapipe_io_targetio R1 calibration step
(src/ctapipe_io_targetio/calibration.py) and of the container default
machinery used by src/ctapipe_io_targetio/containers.py and
src/ctapipe/io/containers.py.

Python arrays are mutable heap objects shared by reference; we model them
with an explicit heap of numbered cells.  Waveforms are nested lists of
integers: the numeric content of a float32 cell is carried as the exact
integer value produced by the cast model below.
-/

set_option autoImplicit false

instance instDecEqExcept {ε α : Type} [DecidableEq ε] [DecidableEq α] :
    DecidableEq (Except ε α) := fun a b =>
  match a, b with
  | Except.error x, Except.error y =>
    if h : x = y then Decidable.isTrue (by rw [h])
    else Decidable.isFalse (fun hc => by cases hc; exact h rfl)
  | Except.error _, Except.ok _ => Decidable.isFalse (fun hc => by cases hc)
  | Except.ok _, Except.error _ => Decidable.isFalse (fun hc => by cases hc)
  | Except.ok x, Except.ok y =>
    if h : x = y then Decidable.isTrue (by rw [h])
    else Decidable.isFalse (fun hc => by cases hc; exact h rfl)

namespace Tgt

/-- A heap of mutable array cells keyed by reference number.  `alloc`
hands out `next` and bumps it; `set` prepends, and `get` reads the most
recent binding, so stale bindings are shadowed. -/
structure Heap (α : Type) where
  next : Nat
  cells : List (Nat × α)
  deriving DecidableEq, Repr

def Heap.get {α : Type} [Inhabited α] (h : Heap α) (r : Nat) : α :=
  ((h.cells.find? (fun p => p.1 == r)).map (fun p => p.2)).getD default

def Heap.set {α : Type} (h : Heap α) (r : Nat) (a : α) : Heap α :=
  ⟨h.next, (r, a) :: h.cells⟩

def Heap.alloc {α : Type} (h : Heap α) (a : α) : Nat × Heap α :=
  (h.next, ⟨h.next + 1, (h.next, a) :: h.cells⟩)

/-- Every cell reference is below the allocation counter. -/
def Heap.wfB {α : Type} (h : Heap α) : Bool :=
  h.cells.all (fun p => p.1 < h.next)

theorem Heap.get_set_eq {α : Type} [Inhabited α] (h : Heap α) (r : Nat) (a : α) :
    (h.set r a).get r = a := by
  simp [Heap.get, Heap.set, List.find?]

theorem Heap.get_set_ne {α : Type} [Inhabited α] (h : Heap α) (r s : Nat) (a : α)
    (hne : s ≠ r) : (h.set r a).get s = h.get s := by
  simp only [Heap.get, Heap.set, List.find?]
  have : ((r, a).1 == s) = false := by simp [hne.symm]
  simp [this]

theorem Heap.get_alloc_eq {α : Type} [Inhabited α] (h : Heap α) (a : α) :
    (h.alloc a).2.get (h.alloc a).1 = a := by
  simp [Heap.get, Heap.alloc, List.find?]

theorem Heap.get_alloc_ne {α : Type} [Inhabited α] (h : Heap α) (a : α) (s : Nat)
    (hne : s ≠ h.next) : (h.alloc a).2.get s = h.get s := by
  simp only [Heap.get, Heap.alloc, List.find?]
  have : ((h.next, a).1 == s) = false := by simp [hne.symm]
  simp [this]

theorem Heap.alloc_next {α : Type} (h : Heap α) (a : α) :
    (h.alloc a).2.next = h.next + 1 := rfl

theorem Heap.get_alloc_fresh {α : Type} [Inhabited α] (h : Heap α) (a : α) :
    (h.alloc a).2.get h.next = a :=
  Heap.get_alloc_eq h a

theorem Heap.alloc_fst {α : Type} (h : Heap α) (a : α) :
    (h.alloc a).1 = h.next := rfl

/-! ### Waveform arrays

A raw targetio waveform has shape (n_channels, n_pixels, n_samples); we
model it as a nested list of exact sample values. -/

/-- One gain channel: a pixels-by-samples matrix. -/
abbrev Chan := List (List Int)

/-- A waveform array: channels, then pixels, then samples. -/
abbrev Wf := List Chan

/-- The nested shape of a waveform (per channel, the list of row lengths). -/
def wfShape (w : Wf) : List (List Nat) :=
  w.map (fun ch => ch.map (fun px => px.length))

/-- np.zeros(samples.shape): a waveform of the same shape, all cells 0. -/
def zerosLike (w : Wf) : Wf :=
  w.map (fun ch => ch.map (fun px => px.map (fun _ => (0 : Int))))

/-- Round-to-nearest-even of a natural number to a 24-bit significand:
the value an IEEE-754 binary32 stores for an integer magnitude (overflow
to infinity is outside the modelled range). -/
def castF32Pos (n : Nat) : Nat :=
  if n ≤ 2 ^ 24 then n
  else
    let s := n.log2 - 23
    let q := n / 2 ^ s
    let r := n % 2 ^ s
    let half := 2 ^ (s - 1)
    let q1 := if half < r ∨ (r = half ∧ q % 2 = 1) then q + 1 else q
    q1 * 2 ^ s

/-- The exact value of casting an integer sample to float32
(numpy astype float32 on integral data). -/
def castF32 (x : Int) : Int :=
  if 0 ≤ x then (castF32Pos x.toNat : Int) else -(castF32Pos (-x).toNat : Int)

/-- samples.astype(float32): elementwise cast of the whole array. -/
def astypeF32 (w : Wf) : Wf :=
  w.map (fun ch => ch.map (fun px => px.map castF32))

/-! ### Event model

Modelled from the spec: the ctapipe event containers that
calibration.py reads (event.meta, event.r0.tel, event.r1.tel,
event.targetio.tel) come from the ctapipe version this plugin targets,
which is not under src/ (src/ctapipe/io/containers.py is an older
revision without r0/r1).  Spec section 3 describes them: an origin tag
in the event metadata, a raw container with a per-telescope waveform, a
calibrated container with a per-telescope waveform, and a
targetio-specific per-telescope first_cell_ids array.  Waveform fields
hold references into the array heap; `none` means the field is unset. -/
structure Event where
  origin : String
  tels_with_data : List Nat
  r0tel : List (Nat × Option Nat)
  r1tel : List (Nat × Option Nat)
  tgtTel : List (Nat × List Int)
  deriving DecidableEq, Repr

/-- Look a telescope id up in a per-telescope map. -/
def lookupTel {α : Type} (m : List (Nat × α)) (t : Nat) : Option α :=
  (m.find? (fun p => p.1 == t)).map (fun p => p.2)

/-- event.r0.tel[t].waveform: a missing map entry reads as a fresh
camera container whose waveform is unset (ctapipe Map is a defaultdict). -/
def getR0Wf (e : Event) (t : Nat) : Option Nat :=
  (lookupTel e.r0tel t).getD none

/-- event.r1.tel[t].waveform, read the same way. -/
def getR1Wf (e : Event) (t : Nat) : Option Nat :=
  (lookupTel e.r1tel t).getD none

/-- event.targetio.tel[t].first_cell_ids (unset reads as empty). -/
def getFci (e : Event) (t : Nat) : List Int :=
  (lookupTel e.tgtTel t).getD []

/-- event.r1.tel[t].waveform = r: update the calibrated container. -/
def setR1Wf (e : Event) (t : Nat) (r : Nat) : Event :=
  { e with r1tel := (t, some r) :: e.r1tel }

theorem lookupTel_setR1Wf_eq (e : Event) (t r : Nat) :
    lookupTel (setR1Wf e t r).r1tel t = some (some r) := by
  simp [lookupTel, setR1Wf, List.find?]

theorem lookupTel_setR1Wf_ne (e : Event) (t r s : Nat) (hne : s ≠ t) :
    lookupTel (setR1Wf e t r).r1tel s = lookupTel e.r1tel s := by
  simp only [lookupTel, setR1Wf, List.find?]
  have : ((t, some r).1 == s) = false := by simp [hne.symm]
  simp [this]

/-- Modelled from the spec: ctapipe's CameraR1Calibrator.check_r0_exists
(the precondition helper "does raw data exist for this telescope", spec
section 4.3) is not under src/; it reports whether the raw waveform for
the telescope is populated. -/
def check_r0_exists (e : Event) (t : Nat) : Bool :=
  (getR0Wf e t).isSome

/-! ### The calibrator (src/ctapipe_io_targetio/calibration.py) -/

/-- The four Unicode path traits of TargetIOR1Calibrator, all
defaulting to the empty string. -/
structure CalibConfig where
  pedestal_path : String
  tf_path : String
  pe_path : String
  ff_path : String
  deriving DecidableEq, Repr

/-- The two bindings _load_calib can give self.calibrate:
fake_calibrate (identity) or real_calibrate (correction). -/
inductive Behavior where
  | identity
  | correction
  deriving DecidableEq, Repr

/-- _load_calib: a truthy (non-empty) pedestal_path builds the
target_calib Calibrator and binds real_calibrate; otherwise it binds
fake_calibrate. -/
def load_calib (cfg : CalibConfig) : Behavior :=
  if cfg.pedestal_path = "" then Behavior.identity else Behavior.correction

/-- The mutable state of a TargetIOR1Calibrator instance: the bound
calibrate method, self.telid, and self._r1_wf (a reference to the
reusable output buffer once allocated). -/
structure Calibrator where
  behavior : Behavior
  telid : Nat
  r1wf : Option Nat
  deriving DecidableEq, Repr

/-- TargetIOR1Calibrator.__init__: sets _r1_wf = None, telid = 0,
then runs _load_calib. -/
def initCalibrator (cfg : CalibConfig) : Calibrator :=
  { behavior := load_calib cfg, telid := 0, r1wf := none }

/-- The error raised by calibrate; in the source it is a ValueError
("Using TargetioR1Calibrator to calibrate a non-targetio event"), the
spec calls it OriginMismatchError. -/
inductive CalibError where
  | originMismatch
  deriving DecidableEq, Repr

/-- A calibration call either raises, carrying the state at the raise
site, or returns the updated calibrator, event and heap. -/
abbrev CalibResult := Except (CalibError × Calibrator × Event × Heap Wf)
  (Calibrator × Event × Heap Wf)

instance : DecidableEq (Event × Heap Wf) := instDecidableEqProd

instance : DecidableEq (Calibrator × Event × Heap Wf) := instDecidableEqProd

instance : DecidableEq (CalibError × Calibrator × Event × Heap Wf) :=
  instDecidableEqProd

instance : DecidableEq CalibResult := instDecEqExcept

/-- fake_calibrate: raise on a non-targetio origin; if raw data exists
for self.telid, fill r1 with samples.astype(float32) (a fresh array);
otherwise return with no effect. -/
def fake_calibrate (c : Calibrator) (e : Event) (h : Heap Wf) : CalibResult :=
  if e.origin ≠ "targetio" then Except.error (CalibError.originMismatch, c, e, h)
  else
    match getR0Wf e c.telid with
    | none => Except.ok (c, e, h)
    | some sref =>
      let af := h.alloc (astypeF32 (h.get sref))
      Except.ok (c, setR1Wf e c.telid af.1, af.2)

/-- The if self._r1_wf is None branch of real_calibrate: allocate a
zero buffer of the samples' shape the first time only. -/
def ensureBuffer (c : Calibrator) (h : Heap Wf) (samples : Wf) :
    Nat × Calibrator × Heap Wf :=
  match c.r1wf with
  | some r => (r, c, h)
  | none =>
    let ab := h.alloc (zerosLike samples)
    (ab.1, { c with r1wf := some ab.1 }, ab.2)

/-- Write vals over the front of buf, keeping buf's length (the
in-place fill of a numpy row by the external routine). -/
def writeInto1 (buf vals : List Int) : List Int :=
  vals.take buf.length ++ buf.drop vals.length

/-- In-place fill of a 2-d buffer slice, row by row, keeping its shape. -/
def writeInto2 (buf vals : Chan) : Chan :=
  List.zipWith writeInto1 buf vals ++ buf.drop vals.length

/-- self.calibrator.ApplyEvent(samples[0], fci, self._r1_wf[0]): the
external target_calib correction (an opaque collaborator, spec section
4.4) computes corrected values from channel 0 of the samples and the
first-cell ids, and fills channel 0 of the buffer in place.  tcApply is
the opaque numeric function. -/
def applyStep (tcApply : Chan → List Int → Chan) (samples : Wf)
    (fci : List Int) (buf : Wf) : Wf :=
  buf.set 0 (writeInto2 (buf.headD []) (tcApply (samples.headD []) fci))

/-- real_calibrate: raise on a non-targetio origin; if raw data exists,
lazily allocate the output buffer, run the external correction into its
channel 0, and store the buffer itself into r1. -/
def real_calibrate (tcApply : Chan → List Int → Chan) (c : Calibrator)
    (e : Event) (h : Heap Wf) : CalibResult :=
  if e.origin ≠ "targetio" then Except.error (CalibError.originMismatch, c, e, h)
  else
    match getR0Wf e c.telid with
    | none => Except.ok (c, e, h)
    | some sref =>
      let samples := h.get sref
      match ensureBuffer c h samples with
      | (bref, c1, h1) =>
        let newBuf := applyStep tcApply samples (getFci e c.telid) (h1.get bref)
        Except.ok (c1, setR1Wf e c1.telid bref, h1.set bref newBuf)

/-- self.calibrate(event): dispatch to the method _load_calib bound. -/
def calibrate (tcApply : Chan → List Int → Chan) (c : Calibrator)
    (e : Event) (h : Heap Wf) : CalibResult :=
  match c.behavior with
  | Behavior.identity => fake_calibrate c e h
  | Behavior.correction => real_calibrate tcApply c e h

/-! ### Concrete sample data for witnesses -/

/-- A concrete stand-in for the opaque target_calib correction:
adds one to every sample of the channel it is given. -/
def applyW : Chan → List Int → Chan :=
  fun ch _ => ch.map (fun px => px.map (fun x => x + 1))

def emptyHeap : Heap Wf := ⟨0, []⟩

def cfgNoPed : CalibConfig := ⟨"", "", "", ""⟩

def cfgPed : CalibConfig := ⟨"ped.tcal", "tf.tcal", "pe.tcal", "ff.tcal"⟩

/-- A targetio event whose raw container holds no waveform. -/
def evNoRaw : Event := ⟨"targetio", [0], [], [], []⟩

/-- An event from a different origin. -/
def evWrongOrigin : Event := ⟨"hessio", [0], [], [], []⟩

/-- A targetio event whose raw waveform for telescope 0 is heap cell 0. -/
def evWithRaw : Event := ⟨"targetio", [0], [(0, some 0)], [], [(0, [5])]⟩

/-- A heap holding one raw waveform (1 channel, 1 pixel, 2 samples). -/
def heap1 : Heap Wf := ⟨1, [(0, [[[10, -3]]])]⟩

/-! ### Frame lemmas about one calibration call -/

theorem calibrate_identity (tcApply : Chan → List Int → Chan)
    (c : Calibrator) (e : Event) (h : Heap Wf)
    (hb : c.behavior = Behavior.identity) :
    calibrate tcApply c e h = fake_calibrate c e h := by
  unfold calibrate; rw [hb]

theorem calibrate_correction (tcApply : Chan → List Int → Chan)
    (c : Calibrator) (e : Event) (h : Heap Wf)
    (hb : c.behavior = Behavior.correction) :
    calibrate tcApply c e h = real_calibrate tcApply c e h := by
  unfold calibrate; rw [hb]

theorem fake_calibrate_frame (c : Calibrator) (e : Event) (h : Heap Wf)
    (c1 : Calibrator) (e1 : Event) (h1 : Heap Wf)
    (hok : fake_calibrate c e h = Except.ok (c1, e1, h1)) :
    c1 = c ∧ e1.origin = e.origin ∧ e1.tels_with_data = e.tels_with_data ∧
      e1.r0tel = e.r0tel ∧ e1.tgtTel = e.tgtTel ∧
      ∀ t, t ≠ c.telid → lookupTel e1.r1tel t = lookupTel e.r1tel t := by
  unfold fake_calibrate at hok
  by_cases ho : e.origin = "targetio"
  · rw [if_neg (by simp [ho])] at hok
    split at hok
    · simp only [Except.ok.injEq, Prod.mk.injEq] at hok
      obtain ⟨hc, he, hh⟩ := hok
      subst hc; subst he
      exact ⟨rfl, rfl, rfl, rfl, rfl, fun t _ => rfl⟩
    · simp only [Except.ok.injEq, Prod.mk.injEq] at hok
      obtain ⟨hc, he, hh⟩ := hok
      subst hc; subst he
      exact ⟨rfl, rfl, rfl, rfl, rfl,
        fun t ht => lookupTel_setR1Wf_ne e c.telid _ t ht⟩
  · rw [if_pos (by simp [ho])] at hok
    exact absurd hok (by simp)

theorem real_calibrate_frame (tcApply : Chan → List Int → Chan)
    (c : Calibrator) (e : Event) (h : Heap Wf)
    (c1 : Calibrator) (e1 : Event) (h1 : Heap Wf)
    (hok : real_calibrate tcApply c e h = Except.ok (c1, e1, h1)) :
    c1.behavior = c.behavior ∧ c1.telid = c.telid ∧
      e1.origin = e.origin ∧ e1.tels_with_data = e.tels_with_data ∧
      e1.r0tel = e.r0tel ∧ e1.tgtTel = e.tgtTel ∧
      ∀ t, t ≠ c.telid → lookupTel e1.r1tel t = lookupTel e.r1tel t := by
  unfold real_calibrate at hok
  by_cases ho : e.origin = "targetio"
  · rw [if_neg (by simp [ho])] at hok
    split at hok
    · simp only [Except.ok.injEq, Prod.mk.injEq] at hok
      obtain ⟨hc, he, hh⟩ := hok
      subst hc; subst he
      exact ⟨rfl, rfl, rfl, rfl, rfl, rfl, fun t _ => rfl⟩
    · unfold ensureBuffer at hok
      cases hbuf : c.r1wf <;> rw [hbuf] at hok <;>
        simp only [Except.ok.injEq, Prod.mk.injEq] at hok <;>
        obtain ⟨hc, he, hh⟩ := hok <;> subst hc <;> subst he
      · exact ⟨rfl, rfl, rfl, rfl, rfl, rfl,
          fun t ht => lookupTel_setR1Wf_ne e c.telid _ t ht⟩
      · exact ⟨rfl, rfl, rfl, rfl, rfl, rfl,
          fun t ht => lookupTel_setR1Wf_ne e c.telid _ t ht⟩
  · rw [if_pos (by simp [ho])] at hok
    exact absurd hok (by simp)

theorem calibrate_ok_frame (tcApply : Chan → List Int → Chan)
    (c : Calibrator) (e : Event) (h : Heap Wf)
    (c1 : Calibrator) (e1 : Event) (h1 : Heap Wf)
    (hok : calibrate tcApply c e h = Except.ok (c1, e1, h1)) :
    c1.behavior = c.behavior ∧ c1.telid = c.telid ∧
      e1.origin = e.origin ∧ e1.tels_with_data = e.tels_with_data ∧
      e1.r0tel = e.r0tel ∧ e1.tgtTel = e.tgtTel ∧
      ∀ t, t ≠ c.telid → lookupTel e1.r1tel t = lookupTel e.r1tel t := by
  cases hb : c.behavior
  · rw [calibrate_identity tcApply c e h hb] at hok
    obtain ⟨hc, rest⟩ := fake_calibrate_frame c e h c1 e1 h1 hok
    exact ⟨by rw [hc, hb], by rw [hc], rest.1, rest.2.1, rest.2.2.1,
      rest.2.2.2.1, rest.2.2.2.2⟩
  · rw [calibrate_correction tcApply c e h hb] at hok
    obtain ⟨hbe, rest⟩ := real_calibrate_frame tcApply c e h c1 e1 h1 hok
    exact ⟨by rw [hbe, hb], rest⟩

theorem calibrate_error_frame (tcApply : Chan → List Int → Chan)
    (c : Calibrator) (e : Event) (h : Heap Wf)
    (err : CalibError) (c1 : Calibrator) (e1 : Event) (h1 : Heap Wf)
    (herr : calibrate tcApply c e h = Except.error (err, c1, e1, h1)) :
    err = CalibError.originMismatch ∧ c1 = c ∧ e1 = e ∧ h1 = h := by
  cases hb : c.behavior
  · rw [calibrate_identity tcApply c e h hb] at herr
    unfold fake_calibrate at herr
    by_cases ho : e.origin = "targetio"
    · rw [if_neg (by simp [ho])] at herr
      split at herr <;> exact absurd herr (by simp)
    · rw [if_pos (by simp [ho])] at herr
      cases herr
      exact ⟨rfl, rfl, rfl, rfl⟩
  · rw [calibrate_correction tcApply c e h hb] at herr
    unfold real_calibrate at herr
    by_cases ho : e.origin = "targetio"
    · rw [if_neg (by simp [ho])] at herr
      split at herr
      · exact absurd herr (by simp)
      · unfold ensureBuffer at herr
        cases hbuf : c.r1wf <;> rw [hbuf] at herr <;> exact absurd herr (by simp)
    · rw [if_pos (by simp [ho])] at herr
      cases herr
      exact ⟨rfl, rfl, rfl, rfl⟩

/-! ### Characterization of the calibration paths -/

theorem fake_calibrate_some (c : Calibrator) (e : Event) (h : Heap Wf)
    (sref : Nat) (horig : e.origin = "targetio")
    (hs : getR0Wf e c.telid = some sref) :
    fake_calibrate c e h = Except.ok (c,
      setR1Wf e c.telid (h.alloc (astypeF32 (h.get sref))).1,
      (h.alloc (astypeF32 (h.get sref))).2) := by
  unfold fake_calibrate
  rw [if_neg (by simp [horig]), hs]

theorem real_calibrate_some_buf (tcApply : Chan → List Int → Chan)
    (c : Calibrator) (e : Event) (h : Heap Wf) (bref sref : Nat)
    (hbuf : c.r1wf = some bref) (horig : e.origin = "targetio")
    (hs : getR0Wf e c.telid = some sref) :
    real_calibrate tcApply c e h = Except.ok (c, setR1Wf e c.telid bref,
      h.set bref (applyStep tcApply (h.get sref) (getFci e c.telid) (h.get bref))) := by
  unfold real_calibrate
  rw [if_neg (by simp [horig]), hs]
  unfold ensureBuffer
  rw [hbuf]

theorem real_calibrate_none_buf (tcApply : Chan → List Int → Chan)
    (c : Calibrator) (e : Event) (h : Heap Wf) (sref : Nat)
    (hbuf : c.r1wf = none) (horig : e.origin = "targetio")
    (hs : getR0Wf e c.telid = some sref) :
    real_calibrate tcApply c e h = Except.ok ({ c with r1wf := some h.next },
      setR1Wf e c.telid h.next,
      ((h.alloc (zerosLike (h.get sref))).2).set h.next
        (applyStep tcApply (h.get sref) (getFci e c.telid)
          ((h.alloc (zerosLike (h.get sref))).2.get h.next))) := by
  unfold real_calibrate
  rw [if_neg (by simp [horig]), hs]
  unfold ensureBuffer
  rw [hbuf]
  rfl

/-! ### Shape preservation of the in-place fill -/

theorem writeInto1_length (buf vals : List Int) :
    (writeInto1 buf vals).length = buf.length := by
  simp [writeInto1]
  omega

theorem writeInto2_shape (buf vals : Chan) :
    (writeInto2 buf vals).map List.length = buf.map List.length := by
  induction buf generalizing vals with
  | nil => simp [writeInto2]
  | cons b bs ih =>
    cases vals with
    | nil => simp [writeInto2]
    | cons v vs =>
      simp only [writeInto2, List.zipWith_cons_cons, List.length_cons,
        List.drop_succ_cons, List.cons_append, List.map_cons, writeInto1_length]
      have := ih vs
      simp only [writeInto2] at this
      rw [this]

theorem applyStep_shape (tcApply : Chan → List Int → Chan) (samples : Wf)
    (fci : List Int) (buf : Wf) :
    wfShape (applyStep tcApply samples fci buf) = wfShape buf := by
  cases buf with
  | nil => rfl
  | cons b bs =>
    simp only [applyStep, List.headD, List.set]
    simp [wfShape, writeInto2_shape]

/-- The calibrated state after fake-calibrating evWithRaw on heap1. -/
def evOut1 : Event := ⟨"targetio", [0], [(0, some 0)], [(0, some 1)], [(0, [5])]⟩

/-- The heap after fake-calibrating evWithRaw on heap1. -/
def heapOut1 : Heap Wf := ⟨2, [(1, [[[10, -3]]]), (0, [[[10, -3]]])]⟩

/-- Claim C4: invoking the calibrator on an event whose origin tag is
not "targetio" always raises the origin-mismatch error (a ValueError in
the source, OriginMismatchError in the spec) in either behavior, and the
error state carries the calibrator, event and heap unchanged, so the
calibrated per-telescope map is never written. -/
theorem origin_guard (tcApply : Chan → List Int → Chan) (c : Calibrator)
    (e : Event) (h : Heap Wf) (horig : e.origin ≠ "targetio") :
    calibrate tcApply c e h = Except.error (CalibError.originMismatch, c, e, h) := by
  cases hb : c.behavior
  · rw [calibrate_identity tcApply c e h hb]
    unfold fake_calibrate
    rw [if_pos horig]
  · rw [calibrate_correction tcApply c e h hb]
    unfold real_calibrate
    rw [if_pos horig]

theorem origin_guard_witness :
    calibrate applyW (initCalibrator cfgNoPed) evWrongOrigin emptyHeap =
      Except.error (CalibError.originMismatch, initCalibrator cfgNoPed,
        evWrongOrigin, emptyHeap) :=
  origin_guard applyW (initCalibrator cfgNoPed) evWrongOrigin emptyHeap (by decide)

/-- Claim C5: the behavior is decided once at construction by
_load_calib, with the pedestal path the sole trigger: an empty pedestal
path binds the identity behavior and a non-empty one the correction
behavior, whatever the other three path options are; and no calibration
call (successful or raising) ever changes the bound behavior. -/
theorem strategy_selection (ped tf pe ff : String)
    (tcApply : Chan → List Int → Chan) (c : Calibrator) (e : Event)
    (h : Heap Wf) (hped : ped ≠ "") :
    (∀ cfg : CalibConfig, (initCalibrator cfg).behavior = load_calib cfg) ∧
    load_calib ⟨"", tf, pe, ff⟩ = Behavior.identity ∧
    load_calib ⟨ped, tf, pe, ff⟩ = Behavior.correction ∧
    (∀ c1 e1 h1, calibrate tcApply c e h = Except.ok (c1, e1, h1) →
      c1.behavior = c.behavior) ∧
    (∀ err c1 e1 h1, calibrate tcApply c e h = Except.error (err, c1, e1, h1) →
      c1.behavior = c.behavior) := by
  refine ⟨fun _ => rfl, by simp [load_calib], by simp [load_calib, hped],
    fun c1 e1 h1 hok => (calibrate_ok_frame tcApply c e h c1 e1 h1 hok).1,
    fun err c1 e1 h1 herr => ?_⟩
  rw [(calibrate_error_frame tcApply c e h err c1 e1 h1 herr).2.1]

theorem strategy_selection_witness :
    ("p" : String) ≠ "" ∧
    load_calib ⟨"", "", "", ""⟩ = Behavior.identity ∧
    load_calib ⟨"p", "", "", ""⟩ = Behavior.correction :=
  ⟨by decide,
    (strategy_selection "p" "" "" "" applyW (initCalibrator cfgNoPed) evNoRaw
      emptyHeap (by decide)).2.1,
    (strategy_selection "p" "" "" "" applyW (initCalibrator cfgNoPed) evNoRaw
      emptyHeap (by decide)).2.2.1⟩

/-- Claim C6: the telescope id is fixed to 0 at construction, and a
calibration call in either behavior leaves the raw map, the targetio
map, and every calibrated-map entry for a telescope id other than 0
unchanged. -/
theorem telescope_zero_only (cfg : CalibConfig)
    (tcApply : Chan → List Int → Chan) (e : Event) (h : Heap Wf) :
    (initCalibrator cfg).telid = 0 ∧
    ∀ c1 e1 h1, calibrate tcApply (initCalibrator cfg) e h = Except.ok (c1, e1, h1) →
      c1.telid = 0 ∧ e1.r0tel = e.r0tel ∧ e1.tgtTel = e.tgtTel ∧
      ∀ t, t ≠ 0 → lookupTel e1.r1tel t = lookupTel e.r1tel t := by
  refine ⟨rfl, fun c1 e1 h1 hok => ?_⟩
  obtain ⟨hbe, hti, ho2, htw, hr0, htg, hr1⟩ :=
    calibrate_ok_frame tcApply _ e h c1 e1 h1 hok
  exact ⟨hti, hr0, htg, fun t ht => hr1 t ht⟩

theorem telescope_zero_only_witness :
    (initCalibrator cfgNoPed).telid = 0 ∧ evOut1.r0tel = evWithRaw.r0tel ∧
      lookupTel evOut1.r1tel 7 = lookupTel evWithRaw.r1tel 7 := by
  have hmain := telescope_zero_only cfgNoPed applyW evWithRaw heap1
  have hres := hmain.2 (initCalibrator cfgNoPed) evOut1 heapOut1 (by decide)
  exact ⟨hmain.1, hres.2.1, hres.2.2.2 7 (by decide)⟩

/-- Claim C2 counterexample: a targetio event with no raw waveform
populated for telescope 0 — the raw-data check fails, yet calibrate (in
either behavior) returns normally with the event untouched: no
MissingRawDataError is signalled, the call is silently skipped. -/
theorem missing_raw_silent_skip_cex :
    check_r0_exists evNoRaw 0 = false ∧
    calibrate applyW (initCalibrator cfgNoPed) evNoRaw emptyHeap =
      Except.ok (initCalibrator cfgNoPed, evNoRaw, emptyHeap) ∧
    calibrate applyW (initCalibrator cfgPed) evNoRaw emptyHeap =
      Except.ok (initCalibrator cfgPed, evNoRaw, emptyHeap) := by decide

/-- Claim C2 (amended): when the raw-data check fails for the requested
telescope id, calibrate in either behavior returns without signalling
any error and leaves the calibrator, the event and the heap unchanged
(the source merely skips the body of the if; only a log warning is
emitted inside the helper). -/
theorem missing_raw_silent_skip (tcApply : Chan → List Int → Chan)
    (c : Calibrator) (e : Event) (h : Heap Wf)
    (horig : e.origin = "targetio")
    (hmiss : check_r0_exists e c.telid = false) :
    calibrate tcApply c e h = Except.ok (c, e, h) := by
  have hr : getR0Wf e c.telid = none := by
    cases hg : getR0Wf e c.telid
    · rfl
    · simp [check_r0_exists, hg] at hmiss
  cases hb : c.behavior
  · rw [calibrate_identity tcApply c e h hb]
    unfold fake_calibrate
    rw [if_neg (by simp [horig]), hr]
  · rw [calibrate_correction tcApply c e h hb]
    unfold real_calibrate
    rw [if_neg (by simp [horig]), hr]

theorem missing_raw_silent_skip_witness :
    calibrate applyW (initCalibrator cfgPed) evNoRaw emptyHeap =
      Except.ok (initCalibrator cfgPed, evNoRaw, emptyHeap) :=
  missing_raw_silent_skip applyW (initCalibrator cfgPed) evNoRaw emptyHeap
    (by decide) (by decide)

/-- Claim C1: a calibrator constructed with no pedestal path is bound
to the identity behavior, and calibrating a targetio event whose raw
container holds a waveform for telescope 0 stores into r1.tel[0] a
fresh array equal, elementwise exactly, to the raw waveform cast to
float32. -/
theorem identity_waveform_cast (cfg : CalibConfig)
    (tcApply : Chan → List Int → Chan) (e : Event) (h : Heap Wf) (sref : Nat)
    (hped : cfg.pedestal_path = "") (horig : e.origin = "targetio")
    (hs : getR0Wf e 0 = some sref) :
    ∃ r h1, calibrate tcApply (initCalibrator cfg) e h =
        Except.ok (initCalibrator cfg, setR1Wf e 0 r, h1) ∧
      getR1Wf (setR1Wf e 0 r) 0 = some r ∧
      h1.get r = astypeF32 (h.get sref) := by
  have hb : (initCalibrator cfg).behavior = Behavior.identity := by
    simp [initCalibrator, load_calib, hped]
  rw [calibrate_identity tcApply _ e h hb]
  rw [fake_calibrate_some (initCalibrator cfg) e h sref horig hs]
  exact ⟨(h.alloc (astypeF32 (h.get sref))).1, (h.alloc (astypeF32 (h.get sref))).2,
    rfl, by simp [getR1Wf, lookupTel_setR1Wf_eq], Heap.get_alloc_eq h _⟩

theorem identity_waveform_cast_witness :
    ∃ r h1, calibrate applyW (initCalibrator cfgNoPed) evWithRaw heap1 =
        Except.ok (initCalibrator cfgNoPed, setR1Wf evWithRaw 0 r, h1) ∧
      getR1Wf (setR1Wf evWithRaw 0 r) 0 = some r ∧
      h1.get r = astypeF32 (heap1.get 0) :=
  identity_waveform_cast cfgNoPed applyW evWithRaw heap1 0 rfl rfl (by decide)

/-! ### Concrete two-event correction run for C3 and C7 -/

/-- The calibrator state after the first correction call below. -/
def cCorr1 : Calibrator := ⟨Behavior.correction, 0, some 2⟩

/-- First event: raw waveform is heap cell 0 (shape 1 x 1 x 2). -/
def evA : Event := ⟨"targetio", [0], [(0, some 0)], [], [(0, [7])]⟩

/-- Second event: raw waveform is heap cell 1 (shape 1 x 1 x 3). -/
def evB : Event := ⟨"targetio", [0], [(0, some 1)], [], [(0, [8])]⟩

def heapAB : Heap Wf := ⟨2, [(0, [[[1, 2]]]), (1, [[[3, 4, 5]]])]⟩

def evAout : Event := ⟨"targetio", [0], [(0, some 0)], [(0, some 2)], [(0, [7])]⟩

def evBout : Event := ⟨"targetio", [0], [(0, some 1)], [(0, some 2)], [(0, [8])]⟩

def heapAfter1 : Heap Wf :=
  ⟨3, [(2, [[[2, 3]]]), (2, [[[0, 0]]]), (0, [[[1, 2]]]), (1, [[[3, 4, 5]]])]⟩

def heapAfter2 : Heap Wf :=
  ⟨3, [(2, [[[4, 5]]]), (2, [[[2, 3]]]), (2, [[[0, 0]]]),
    (0, [[[1, 2]]]), (1, [[[3, 4, 5]]])]⟩

/-- Claim C3 counterexample: with a pedestal path configured, calibrate
a first event of raw shape 1 x 1 x 2 and then a second of raw shape
1 x 1 x 3 with the same instance.  Both calls return, but the internal
buffer is not reallocated: the second event's calibrated waveform is
the old buffer with shape 1 x 1 x 2, not 1 x 1 x 3 as the claim
demands. -/
theorem shape_not_reallocated_cex :
    calibrate applyW (initCalibrator cfgPed) evA heapAB =
      Except.ok (cCorr1, evAout, heapAfter1) ∧
    calibrate applyW cCorr1 evB heapAfter1 =
      Except.ok (cCorr1, evBout, heapAfter2) ∧
    cCorr1.r1wf = some 2 ∧
    getR1Wf evBout 0 = some 2 ∧
    wfShape (heapAfter1.get 1) = [[3]] ∧
    wfShape (heapAfter2.get 2) = [[2]] ∧
    ¬ ([[2]] = ([[3]] : List (List Nat))) := by decide

/-- Claim C3 (amended): in correction behavior, once the output buffer
exists a later call never reallocates it, whatever the shape of the new
event's raw waveform: the call succeeds, stores the very same buffer
reference into r1, and the buffer keeps its previous shape (the
in-place fill preserves shape). -/
theorem buffer_not_reallocated (tcApply : Chan → List Int → Chan)
    (c : Calibrator) (e : Event) (h : Heap Wf) (bref sref : Nat)
    (hb : c.behavior = Behavior.correction) (hbuf : c.r1wf = some bref)
    (horig : e.origin = "targetio") (hs : getR0Wf e c.telid = some sref) :
    calibrate tcApply c e h = Except.ok (c, setR1Wf e c.telid bref,
      h.set bref (applyStep tcApply (h.get sref) (getFci e c.telid) (h.get bref))) ∧
    wfShape ((h.set bref (applyStep tcApply (h.get sref) (getFci e c.telid)
      (h.get bref))).get bref) = wfShape (h.get bref) := by
  constructor
  · rw [calibrate_correction tcApply c e h hb]
    exact real_calibrate_some_buf tcApply c e h bref sref hbuf horig hs
  · rw [Heap.get_set_eq, applyStep_shape]

theorem buffer_not_reallocated_witness :
    calibrate applyW cCorr1 evB heapAfter1 =
      Except.ok (cCorr1, setR1Wf evB 0 2,
        heapAfter1.set 2 (applyStep applyW (heapAfter1.get 1) (getFci evB 0)
          (heapAfter1.get 2))) ∧
    wfShape ((heapAfter1.set 2 (applyStep applyW (heapAfter1.get 1)
      (getFci evB 0) (heapAfter1.get 2))).get 2) = wfShape (heapAfter1.get 2) :=
  buffer_not_reallocated applyW cCorr1 evB heapAfter1 2 1 rfl rfl rfl (by decide)

/-- Claim C7: in correction behavior the array stored into
r1.tel[telid].waveform is the calibrator's single reusable buffer, not
a copy: calibrating E1 and then E2 with the same instance stores the
same reference bref into both events' calibrated containers, and after
the second call the cell behind bref holds E2's corrected values — so
the waveform E1's container points at now reads E2's data. -/
theorem buffer_aliased_across_events (tcApply : Chan → List Int → Chan)
    (c c1 c2 : Calibrator) (e1 e2 ev1 ev2 : Event) (h h1 h2 : Heap Wf)
    (s1 s2 : Nat)
    (hb : c.behavior = Behavior.correction)
    (ho1 : e1.origin = "targetio") (ho2 : e2.origin = "targetio")
    (hs1 : getR0Wf e1 c.telid = some s1) (hs2 : getR0Wf e2 c.telid = some s2)
    (hshape : wfShape (h.get s1) = wfShape (h.get s2))
    (hv2 : s2 < h.next) (hsep : ∀ r, c.r1wf = some r → s2 ≠ r)
    (hc1 : calibrate tcApply c e1 h = Except.ok (c1, ev1, h1))
    (hc2 : calibrate tcApply c1 e2 h1 = Except.ok (c2, ev2, h2)) :
    ∃ bref, c1.r1wf = some bref ∧
      getR1Wf ev1 c.telid = some bref ∧ getR1Wf ev2 c.telid = some bref ∧
      h2.get bref = applyStep tcApply (h.get s2) (getFci e2 c.telid) (h1.get bref) := by
  cases hbuf : c.r1wf with
  | some bref =>
    have hns2 : s2 ≠ bref := hsep bref hbuf
    rw [calibrate_correction tcApply c e1 h hb,
      real_calibrate_some_buf tcApply c e1 h bref s1 hbuf ho1 hs1] at hc1
    cases hc1
    rw [calibrate_correction tcApply c e2 _ hb,
      real_calibrate_some_buf tcApply c e2 _ bref s2 hbuf ho2 hs2] at hc2
    cases hc2
    refine ⟨bref, hbuf, by simp [getR1Wf, lookupTel_setR1Wf_eq],
      by simp [getR1Wf, lookupTel_setR1Wf_eq], ?_⟩
    rw [Heap.get_set_eq, Heap.get_set_ne _ _ _ _ hns2]
  | none =>
    have hns2 : s2 ≠ h.next := Nat.ne_of_lt hv2
    rw [calibrate_correction tcApply c e1 h hb,
      real_calibrate_none_buf tcApply c e1 h s1 hbuf ho1 hs1] at hc1
    cases hc1
    rw [calibrate_correction tcApply { c with r1wf := some h.next } e2 _ hb,
      real_calibrate_some_buf tcApply { c with r1wf := some h.next } e2 _
        h.next s2 rfl ho2 hs2] at hc2
    cases hc2
    refine ⟨h.next, rfl, by simp [getR1Wf, lookupTel_setR1Wf_eq],
      by simp [getR1Wf, lookupTel_setR1Wf_eq], ?_⟩
    rw [Heap.get_set_eq, Heap.get_set_ne _ _ _ _ hns2,
      Heap.get_alloc_ne _ _ _ hns2]

/-- A heap for the aliasing witness: two raw waveforms of equal shape. -/
def heapEq : Heap Wf := ⟨2, [(0, [[[1, 2]]]), (1, [[[6, 7]]])]⟩

/-- Heap after the first aliasing-witness call. -/
def heapEq1 : Heap Wf :=
  ⟨3, [(2, [[[2, 3]]]), (2, [[[0, 0]]]), (0, [[[1, 2]]]), (1, [[[6, 7]]])]⟩

/-- Heap after the second aliasing-witness call. -/
def heapEq2 : Heap Wf :=
  ⟨3, [(2, [[[7, 8]]]), (2, [[[2, 3]]]), (2, [[[0, 0]]]),
    (0, [[[1, 2]]]), (1, [[[6, 7]]])]⟩

theorem buffer_aliased_across_events_witness :
    ∃ bref, cCorr1.r1wf = some bref ∧
      getR1Wf evAout 0 = some bref ∧ getR1Wf evBout 0 = some bref ∧
      heapEq2.get bref =
        applyStep applyW (heapEq.get 1) (getFci evB 0) (heapEq1.get bref) :=
  buffer_aliased_across_events applyW (initCalibrator cfgPed) cCorr1 cCorr1
    evA evB evAout evBout heapEq heapEq1 heapEq2 0 1
    rfl rfl rfl (by decide) (by decide) (by decide) (by decide)
    (fun r hr => Option.noConfusion hr) (by decide) (by decide)

/-! ### Channel-0-only correction -/

/-- Every sample in channels 1 and above of a waveform is zero. -/
def tailZeroB (w : Wf) : Bool :=
  (w.drop 1).all (fun ch => ch.all (fun px => px.all (fun x => x == 0)))

theorem tailZeroB_set0 (w : Wf) (x : Chan) :
    tailZeroB (w.set 0 x) = tailZeroB w := by
  cases w <;> simp [tailZeroB]

theorem tailZeroB_applyStep (tcApply : Chan → List Int → Chan) (s : Wf)
    (fci : List Int) (buf : Wf) :
    tailZeroB (applyStep tcApply s fci buf) = tailZeroB buf := by
  unfold applyStep
  exact tailZeroB_set0 _ _

theorem tailZeroB_zerosLike (w : Wf) : tailZeroB (zerosLike w) = true := by
  unfold tailZeroB zerosLike
  rw [← List.map_drop]
  simp only [List.all_eq_true, List.mem_map, beq_iff_eq]
  rintro ch ⟨ch0, hch0, rfl⟩ px hpx x hx
  obtain ⟨px0, hpx0, rfl⟩ := List.mem_map.mp hpx
  obtain ⟨x0, hx0, rfl⟩ := List.mem_map.mp hx
  rfl

/-- Claim C8: in correction behavior only channel 0 of the buffer is
ever written (samples[0] into _r1_wf[0]); provided channels 1 and above
of the current buffer are still zero (true from allocation on, since
np.zeros initializes them and no call touches them), the waveform
stored into r1 has every sample of channels 1 and above equal to 0,
never a corrected sample. -/
theorem channel_zero_only_corrected (tcApply : Chan → List Int → Chan)
    (c c1 : Calibrator) (e ev1 : Event) (h h1 : Heap Wf) (sref : Nat)
    (hb : c.behavior = Behavior.correction)
    (horig : e.origin = "targetio") (hs : getR0Wf e c.telid = some sref)
    (hinv : ∀ r, c.r1wf = some r → tailZeroB (h.get r) = true)
    (hc1 : calibrate tcApply c e h = Except.ok (c1, ev1, h1)) :
    ∃ bref, c1.r1wf = some bref ∧ getR1Wf ev1 c.telid = some bref ∧
      tailZeroB (h1.get bref) = true := by
  cases hbuf : c.r1wf with
  | some bref =>
    rw [calibrate_correction tcApply c e h hb,
      real_calibrate_some_buf tcApply c e h bref sref hbuf horig hs] at hc1
    cases hc1
    refine ⟨bref, hbuf, by simp [getR1Wf, lookupTel_setR1Wf_eq], ?_⟩
    rw [Heap.get_set_eq, tailZeroB_applyStep]
    exact hinv bref hbuf
  | none =>
    rw [calibrate_correction tcApply c e h hb,
      real_calibrate_none_buf tcApply c e h sref hbuf horig hs] at hc1
    cases hc1
    refine ⟨h.next, rfl, by simp [getR1Wf, lookupTel_setR1Wf_eq], ?_⟩
    rw [Heap.get_set_eq, tailZeroB_applyStep, Heap.get_alloc_fresh]
    exact tailZeroB_zerosLike _

/-- A two-channel raw waveform: channel 1 must stay zero after
correction. -/
def heapMC : Heap Wf := ⟨1, [(0, [[[4, 5]], [[9, 9]]])]⟩

def evMC : Event := ⟨"targetio", [0], [(0, some 0)], [], [(0, [3])]⟩

/-- Calibrator state after correcting evMC. -/
def cMC1 : Calibrator := ⟨Behavior.correction, 0, some 1⟩

def evMCout : Event := ⟨"targetio", [0], [(0, some 0)], [(0, some 1)], [(0, [3])]⟩

def heapMCout : Heap Wf :=
  ⟨2, [(1, [[[5, 6]], [[0, 0]]]), (1, [[[0, 0]], [[0, 0]]]),
    (0, [[[4, 5]], [[9, 9]]])]⟩

theorem channel_zero_only_corrected_witness :
    ∃ bref, cMC1.r1wf = some bref ∧ getR1Wf evMCout 0 = some bref ∧
      tailZeroB (heapMCout.get bref) = true :=
  channel_zero_only_corrected applyW (initCalibrator cfgPed) cMC1 evMC evMCout
    heapMC heapMCout 0 rfl rfl (by decide)
    (fun r hr => Option.noConfusion hr) (by decide)

/-- Claim C9: for an event accepted by the origin check whose raw
waveform is populated, calibrate in either behavior leaves the raw
container untouched: the r0 map is unchanged and the raw waveform cell
still holds exactly its previous contents (the identity path writes a
fresh array, the correction path writes only the separate buffer). -/
theorem raw_container_unchanged (tcApply : Chan → List Int → Chan)
    (c : Calibrator) (e : Event) (h : Heap Wf) (sref : Nat)
    (horig : e.origin = "targetio") (hs : getR0Wf e c.telid = some sref)
    (hv : sref < h.next) (hsep : ∀ r, c.r1wf = some r → sref ≠ r) :
    ∃ c1 e1 h1, calibrate tcApply c e h = Except.ok (c1, e1, h1) ∧
      e1.r0tel = e.r0tel ∧ getR0Wf e1 c.telid = some sref ∧
      h1.get sref = h.get sref := by
  have hnext : sref ≠ h.next := Nat.ne_of_lt hv
  cases hb : c.behavior with
  | identity =>
    rw [calibrate_identity tcApply c e h hb]
    rw [fake_calibrate_some c e h sref horig hs]
    exact ⟨c, _, _, rfl, rfl, hs, Heap.get_alloc_ne h _ sref hnext⟩
  | correction =>
    rw [calibrate_correction tcApply c e h hb]
    cases hbuf : c.r1wf with
    | some bref =>
      rw [real_calibrate_some_buf tcApply c e h bref sref hbuf horig hs]
      exact ⟨c, _, _, rfl, rfl, hs,
        Heap.get_set_ne _ _ _ _ (hsep bref hbuf)⟩
    | none =>
      rw [real_calibrate_none_buf tcApply c e h sref hbuf horig hs]
      refine ⟨_, _, _, rfl, rfl, hs, ?_⟩
      rw [Heap.get_set_ne _ _ _ _ hnext, Heap.get_alloc_ne _ _ _ hnext]

theorem raw_container_unchanged_witness :
    ∃ c1 e1 h1, calibrate applyW (initCalibrator cfgPed) evWithRaw heap1 =
        Except.ok (c1, e1, h1) ∧
      e1.r0tel = evWithRaw.r0tel ∧ getR0Wf e1 0 = some 0 ∧
      h1.get 0 = heap1.get 0 :=
  raw_container_unchanged applyW (initCalibrator cfgPed) evWithRaw heap1 0
    rfl (by decide) (by decide) (fun r hr => Option.noConfusion hr)

/-! ### Container default machinery

Modelled from the spec: the ctapipe.core Field/Container/Map machinery
(descriptor-declared fields with defaults) that containers.py builds on
is not under src/ (only its callers are).  Spec section 4.1: a field
declaration fixes a default; constructing a Container instantiates all
declared fields with their defaults, with containers recursively
instantiated and mutable defaults (lists, maps, arrays) given fresh
independent instances never shared across container instances, and
resetting restores every field to a freshly constructed default.
Mutable default contents live in a heap of cells (`Heap (List Int)`);
immutable defaults (numbers, None, a class object used as a default)
are carried directly. -/

mutual

/-- The declaration of one container class: a tree of field defaults. -/
inductive Schema where
  | prim (d : Int)
  | sent (tag : String)
  | mcell (d : List Int)
  | node (fs : SchemaFields)

inductive SchemaFields where
  | nil
  | cons (name : String) (s : Schema) (rest : SchemaFields)

end

mutual

/-- A constructed container value: immutable field values inline,
mutable field values as heap references, nested containers as nodes. -/
inductive CVal where
  | prim (v : Int)
  | sent (tag : String)
  | ref (r : Nat)
  | node (fields : CFields)

inductive CFields where
  | nil
  | cons (name : String) (v : CVal) (rest : CFields)

end

mutual

/-- Construct a container instance: every mutable default gets a fresh
heap cell holding a copy of the declared default, nested containers are
instantiated recursively. -/
def instantiate : Schema → Heap (List Int) → CVal × Heap (List Int)
  | Schema.prim d, h => (CVal.prim d, h)
  | Schema.sent t, h => (CVal.sent t, h)
  | Schema.mcell d, h =>
    let ab := h.alloc d
    (CVal.ref ab.1, ab.2)
  | Schema.node fs, h =>
    let vb := instFields fs h
    (CVal.node vb.1, vb.2)

def instFields : SchemaFields → Heap (List Int) → CFields × Heap (List Int)
  | SchemaFields.nil, h => (CFields.nil, h)
  | SchemaFields.cons nm s rest, h =>
    let vh := instantiate s h
    let vsh := instFields rest vh.2
    (CFields.cons nm vh.1 vsh.1, vsh.2)

end

/-- reset(C): every field is returned to a freshly constructed default,
the same allocation discipline as construction (spec section 4.1). -/
def reset (s : Schema) (_old : CVal) (h : Heap (List Int)) :
    CVal × Heap (List Int) :=
  instantiate s h

mutual

/-- Reading every field of the value gives exactly its declared
default (mutable fields read through the heap). -/
def conformsB (h : Heap (List Int)) : CVal → Schema → Bool
  | CVal.prim v, Schema.prim d => v == d
  | CVal.sent t, Schema.sent t2 => t == t2
  | CVal.ref r, Schema.mcell d => h.get r == d
  | CVal.node vs, Schema.node fs => confFieldsB h vs fs
  | _, _ => false

def confFieldsB (h : Heap (List Int)) : CFields → SchemaFields → Bool
  | CFields.nil, SchemaFields.nil => true
  | CFields.cons nm v vs, SchemaFields.cons nm2 s fs =>
    nm == nm2 && conformsB h v s && confFieldsB h vs fs
  | _, _ => false

end

mutual

/-- The heap references owned by a container value. -/
def refsOf : CVal → List Nat
  | CVal.prim _ => []
  | CVal.sent _ => []
  | CVal.ref r => [r]
  | CVal.node vs => refsOfFields vs

def refsOfFields : CFields → List Nat
  | CFields.nil => []
  | CFields.cons _ v vs => refsOf v ++ refsOfFields vs

end

mutual

theorem instantiate_next_mono (s : Schema) (h : Heap (List Int)) :
    h.next ≤ (instantiate s h).2.next := by
  cases s with
  | prim d => exact Nat.le_refl _
  | sent t => exact Nat.le_refl _
  | mcell d => exact Nat.le_succ _
  | node fs => exact instFields_next_mono fs h

theorem instFields_next_mono (fs : SchemaFields) (h : Heap (List Int)) :
    h.next ≤ (instFields fs h).2.next := by
  cases fs with
  | nil => exact Nat.le_refl _
  | cons nm s rest =>
    exact Nat.le_trans (instantiate_next_mono s h)
      (instFields_next_mono rest (instantiate s h).2)

end

mutual

theorem instantiate_get_preserved (s : Schema) (h : Heap (List Int)) (r : Nat)
    (hr : r < h.next) : (instantiate s h).2.get r = h.get r := by
  cases s with
  | prim d => rfl
  | sent t => rfl
  | mcell d => exact Heap.get_alloc_ne h d r (Nat.ne_of_lt hr)
  | node fs => exact instFields_get_preserved fs h r hr

theorem instFields_get_preserved (fs : SchemaFields) (h : Heap (List Int))
    (r : Nat) (hr : r < h.next) : (instFields fs h).2.get r = h.get r := by
  cases fs with
  | nil => rfl
  | cons nm s rest =>
    have h2 := instFields_get_preserved rest (instantiate s h).2 r
      (Nat.lt_of_lt_of_le hr (instantiate_next_mono s h))
    have h1 := instantiate_get_preserved s h r hr
    exact Eq.trans h2 h1

end

mutual

theorem refsOf_instantiate_bounds (s : Schema) (h : Heap (List Int)) :
    ∀ r ∈ refsOf (instantiate s h).1,
      h.next ≤ r ∧ r < (instantiate s h).2.next := by
  cases s with
  | prim d => intro r hr; simp [instantiate, refsOf] at hr
  | sent t => intro r hr; simp [instantiate, refsOf] at hr
  | mcell d =>
    intro r hr
    simp only [instantiate, refsOf, List.mem_singleton] at hr
    subst hr
    exact ⟨Nat.le_refl _, Nat.lt_succ_self _⟩
  | node fs => exact refsOfFields_instFields_bounds fs h

theorem refsOfFields_instFields_bounds (fs : SchemaFields) (h : Heap (List Int)) :
    ∀ r ∈ refsOfFields (instFields fs h).1,
      h.next ≤ r ∧ r < (instFields fs h).2.next := by
  cases fs with
  | nil => intro r hr; simp [instFields, refsOfFields] at hr
  | cons nm s rest =>
    intro r hr
    simp only [instFields, refsOfFields, List.mem_append] at hr
    cases hr with
    | inl hl =>
      obtain ⟨ha, hb⟩ := refsOf_instantiate_bounds s h r hl
      exact ⟨ha, Nat.lt_of_lt_of_le hb (instFields_next_mono rest (instantiate s h).2)⟩
    | inr hrr =>
      obtain ⟨ha, hb⟩ := refsOfFields_instFields_bounds rest (instantiate s h).2 r hrr
      exact ⟨Nat.le_trans (instantiate_next_mono s h) ha, hb⟩

end

mutual

theorem conformsB_mono (v : CVal) (s : Schema) (h h2 : Heap (List Int))
    (hext : ∀ r ∈ refsOf v, h2.get r = h.get r) :
    conformsB h2 v s = conformsB h v s := by
  cases v with
  | prim x => cases s <;> rfl
  | sent t => cases s <;> rfl
  | ref r =>
    cases s with
    | mcell d =>
      have : h2.get r = h.get r := hext r (by simp [refsOf])
      simp [conformsB, this]
    | prim d => rfl
    | sent t2 => rfl
    | node fs => rfl
  | node vs =>
    cases s with
    | mcell d => rfl
    | prim d => rfl
    | sent t2 => rfl
    | node fs =>
      have := confFieldsB_mono vs fs h h2 (by
        intro r hr
        exact hext r (by simpa [refsOf] using hr))
      simpa [conformsB] using this

theorem confFieldsB_mono (vs : CFields) (fs : SchemaFields)
    (h h2 : Heap (List Int))
    (hext : ∀ r ∈ refsOfFields vs, h2.get r = h.get r) :
    confFieldsB h2 vs fs = confFieldsB h vs fs := by
  cases vs with
  | nil => cases fs <;> rfl
  | cons nm v rest =>
    cases fs with
    | nil => rfl
    | cons nm2 s fs2 =>
      have hv := conformsB_mono v s h h2 (by
        intro r hr
        exact hext r (by simp [refsOfFields, List.mem_append, hr]))
      have hrest := confFieldsB_mono rest fs2 h h2 (by
        intro r hr
        exact hext r (by simp [refsOfFields, List.mem_append, hr]))
      simp [confFieldsB, hv, hrest]

end

mutual

theorem conformsB_instantiate (s : Schema) (h : Heap (List Int)) :
    conformsB (instantiate s h).2 (instantiate s h).1 s = true := by
  cases s with
  | prim d => simp [instantiate, conformsB]
  | sent t => simp [instantiate, conformsB]
  | mcell d => simp [instantiate, conformsB, Heap.get_alloc_eq]
  | node fs =>
    have := confFieldsB_instFields fs h
    simpa [instantiate, conformsB] using this

theorem confFieldsB_instFields (fs : SchemaFields) (h : Heap (List Int)) :
    confFieldsB (instFields fs h).2 (instFields fs h).1 fs = true := by
  cases fs with
  | nil => rfl
  | cons nm s rest =>
    have hv0 := conformsB_instantiate s h
    have hvmono : conformsB (instFields rest (instantiate s h).2).2
        (instantiate s h).1 s = conformsB (instantiate s h).2 (instantiate s h).1 s := by
      refine conformsB_mono _ _ _ _ ?_
      intro r hr
      exact instFields_get_preserved rest (instantiate s h).2 r
        (refsOf_instantiate_bounds s h r hr).2
    have hrest := confFieldsB_instFields rest (instantiate s h).2
    simp [instFields, confFieldsB, hvmono, hv0, hrest]

end

/-- Build a SchemaFields from a list of declarations. -/
def fieldsOf : List (String × Schema) → SchemaFields
  | [] => SchemaFields.nil
  | (nm, s) :: rest => SchemaFields.cons nm s (fieldsOf rest)

/-- src/ctapipe/io/containers.py InstrumentContainer: eight
per-telescope Map fields (mutable, empty by default). -/
def instrumentContainerSchema : Schema :=
  Schema.node (fieldsOf [("pixel_pos", Schema.mcell []),
    ("optical_foclen", Schema.mcell []),
    ("mirror_dish_area", Schema.mcell []),
    ("mirror_numtiles", Schema.mcell []),
    ("tel_pos", Schema.mcell []),
    ("num_pixels", Schema.mcell []),
    ("num_samples", Schema.mcell []),
    ("num_channels", Schema.mcell [])])

/-- src/ctapipe/io/containers.py CalibratedContainer: one Map field. -/
def calibratedContainerSchema : Schema :=
  Schema.node (fieldsOf [("tel", Schema.mcell [])])

/-- src/ctapipe/io/containers.py RawDataContainer: run_id -1,
event_id -1, tels_with_data [] (mutable list), tel Map. -/
def rawDataContainerSchema : Schema :=
  Schema.node (fieldsOf [("run_id", Schema.prim (-1)),
    ("event_id", Schema.prim (-1)),
    ("tels_with_data", Schema.mcell []),
    ("tel", Schema.mcell [])])

/-- src/ctapipe/io/containers.py MCEventContainer. -/
def mcEventContainerSchema : Schema :=
  Schema.node (fieldsOf [("energy", Schema.prim 0),
    ("alt", Schema.prim 0),
    ("az", Schema.prim 0),
    ("core_x", Schema.prim 0),
    ("core_y", Schema.prim 0),
    ("h_first_int", Schema.prim 0),
    ("tel", Schema.mcell [])])

/-- src/ctapipe/io/containers.py CentralTriggerContainer: gps_time
defaults to the Time class object (an immutable shared sentinel),
tels_with_trigger to a fresh list. -/
def centralTriggerContainerSchema : Schema :=
  Schema.node (fieldsOf [("gps_time", Schema.sent "Time"),
    ("tels_with_trigger", Schema.mcell [])])

/-- src/ctapipe/io/containers.py ReconstructedContainer: three Maps. -/
def reconstructedContainerSchema : Schema :=
  Schema.node (fieldsOf [("shower", Schema.mcell []),
    ("energy", Schema.mcell []),
    ("classification", Schema.mcell [])])

/-- src/ctapipe/io/containers.py DataContainer (lines 220-231): nested
containers dl0/dl1/dl2/mc/trig/inst, the mcheader default being the
MCHeaderContainer class object itself (an immutable sentinel, a quirk
of the source), and count 0. -/
def dataContainerSchema : Schema :=
  Schema.node (fieldsOf [("dl0", rawDataContainerSchema),
    ("dl1", calibratedContainerSchema),
    ("dl2", reconstructedContainerSchema),
    ("mc", mcEventContainerSchema),
    ("mcheader", Schema.sent "MCHeaderContainer"),
    ("trig", centralTriggerContainerSchema),
    ("count", Schema.prim 0),
    ("inst", instrumentContainerSchema)])

/-- src/ctapipe_io_targetio/containers.py TargetIOContainer: one Map
field tel. -/
def targetContainerSchema : Schema :=
  Schema.node (fieldsOf [("tel", Schema.mcell [])])

/-- src/ctapipe_io_targetio/containers.py TargetIODataContainer:
DataContainer plus the targetio field (a nested TargetIOContainer). -/
def targetDataContainerSchema : Schema :=
  Schema.node (fieldsOf [("dl0", rawDataContainerSchema),
    ("dl1", calibratedContainerSchema),
    ("dl2", reconstructedContainerSchema),
    ("mc", mcEventContainerSchema),
    ("mcheader", Schema.sent "MCHeaderContainer"),
    ("trig", centralTriggerContainerSchema),
    ("count", Schema.prim 0),
    ("inst", instrumentContainerSchema),
    ("targetio", targetContainerSchema)])

/-- Claim C10: constructing a container twice in sequence yields two
instances whose mutable-field heap cells are disjoint (defaults are
fresh, never shared); after the sibling is constructed, both instances
still read exactly their declared defaults for every field; and
reset(C) is the same reinstantiation, so reset followed by reading any
declared field returns exactly that field's declared default. -/
theorem container_fresh_defaults (s : Schema) (h h1 h2 : Heap (List Int))
    (v1 v2 old : CVal)
    (hv1 : instantiate s h = (v1, h1)) (hv2 : instantiate s h1 = (v2, h2)) :
    (refsOf v1).all (fun r => !((refsOf v2).contains r)) = true ∧
    conformsB h1 v1 s = true ∧
    conformsB h2 v1 s = true ∧
    conformsB h2 v2 s = true ∧
    reset s old h = (v1, h1) := by
  have hb1 := refsOf_instantiate_bounds s h
  simp only [hv1] at hb1
  have hb2 := refsOf_instantiate_bounds s h1
  simp only [hv2] at hb2
  have hc1 := conformsB_instantiate s h
  simp only [hv1] at hc1
  have hc2 := conformsB_instantiate s h1
  simp only [hv2] at hc2
  have hpres : ∀ r, r < h1.next → h2.get r = h1.get r := by
    intro r hr
    have := instantiate_get_preserved s h1 r hr
    simpa only [hv2] using this
  refine ⟨?_, hc1, ?_, hc2, ?_⟩
  · rw [List.all_eq_true]
    intro r hr
    have hlt : r < h1.next := (hb1 r hr).2
    have : (refsOf v2).contains r = false := by
      by_contra hcon
      have hmem : r ∈ refsOf v2 :=
        List.mem_of_elem_eq_true (eq_true_of_ne_false hcon)
      exact absurd (hb2 r hmem).1 (Nat.not_le_of_lt hlt)
    rw [this]
    rfl
  · rw [conformsB_mono v1 s h1 h2 (fun r hr => hpres r (hb1 r hr).2)]
    exact hc1
  · unfold reset
    exact hv1

theorem container_fresh_defaults_witness :
    (refsOf (instantiate targetDataContainerSchema ⟨0, []⟩).1).all
      (fun r => !((refsOf (instantiate targetDataContainerSchema
        (instantiate targetDataContainerSchema ⟨0, []⟩).2).1).contains r)) = true ∧
    conformsB (instantiate targetDataContainerSchema ⟨0, []⟩).2
      (instantiate targetDataContainerSchema ⟨0, []⟩).1
      targetDataContainerSchema = true ∧
    conformsB (instantiate targetDataContainerSchema
        (instantiate targetDataContainerSchema ⟨0, []⟩).2).2
      (instantiate targetDataContainerSchema ⟨0, []⟩).1
      targetDataContainerSchema = true ∧
    conformsB (instantiate targetDataContainerSchema
        (instantiate targetDataContainerSchema ⟨0, []⟩).2).2
      (instantiate targetDataContainerSchema
        (instantiate targetDataContainerSchema ⟨0, []⟩).2).1
      targetDataContainerSchema = true ∧
    reset targetDataContainerSchema (CVal.prim 0) ⟨0, []⟩ =
      ((instantiate targetDataContainerSchema ⟨0, []⟩).1,
        (instantiate targetDataContainerSchema ⟨0, []⟩).2) :=
  container_fresh_defaults targetDataContainerSchema ⟨0, []⟩
    (instantiate targetDataContainerSchema ⟨0, []⟩).2
    (instantiate targetDataContainerSchema
      (instantiate targetDataContainerSchema ⟨0, []⟩).2).2
    (instantiate targetDataContainerSchema ⟨0, []⟩).1
    (instantiate targetDataContainerSchema
      (instantiate targetDataContainerSchema ⟨0, []⟩).2).1
    (CVal.prim 0) rfl rfl

end Tgt
